import Mathlib

/-!
Verification of the DSO display renderer (TouchDSODisplay.cpp).

The development shallowly embeds the rendering code of the repository:
pure conversion functions become Lean functions on `Int` (C `int`
arithmetic, which never overflows for the magnitudes involved), the
C `/` operator is modelled by `Int.tdiv` (truncation towards zero) and
the arithmetic right shift on nonnegative values by `Int.fdiv` with a
power of two.  Loops walking raw or screen buffers become structural
recursions over an explicit cursor; buffers are total functions from
column index to stored value.  Emitted draw primitives are reified as
a list of `DrawCmd` values so that geometric properties of a render
pass can be stated as properties of that list.
-/

/-- Modelled from the spec: the numeric constants of the renderer are
defined in repository headers (TouchDSO.h, Pages.h, BlueDisplay.h) that
are not among the provided sources; only TouchDSODisplay.cpp is.  The
spec fixes their relationships: valid rows lie in
[0, DISPLAY_VALUE_FOR_ZERO], the invisible sentinel is distinct from
every valid row, the display is DSO_DISPLAY_WIDTH columns wide with a
timing grid at pitch TIMING_GRID_WIDTH.  The constants are therefore
kept as parameters of the whole development. -/
structure DsoEnv where
  DATABUFFER_INVISIBLE_RAW_VALUE : Int
  DISPLAYBUFFER_INVISIBLE_VALUE : Int
  DISPLAY_VALUE_FOR_ZERO : Int
  DSO_SCALE_FACTOR_SHIFT : Nat
  DSO_DISPLAY_WIDTH : Nat
  TIMING_GRID_WIDTH : Nat
  TRIGGER_HIGH_DISPLAY_OFFSET : Int
  TRIGGER_MODE_OFF : Nat
  COLOR_BACKGROUND_DSO : Int
  COLOR_GRID_LINES : Int
  COLOR_DATA_HOLD : Int
  COLOR_TRIGGER_LINE : Int
  COLOR_MAX_MIN_LINE : Int
  COLOR_DATA_TRIGGER : Int
  COLOR_DATA_RUN_CLIPPING : Int

/-- Fields of the global MeasurementControl structure read by the
display code, together with the per range scale table
ScaleFactorRawToDisplayShift18 (indexed by DisplayRangeIndex). -/
structure MeasurementControlModel where
  ChannelIsACMode : Bool
  RawDSOReadingACZero : Int
  RawOffsetValueForDisplayRange : Int
  DisplayRangeIndex : Nat
  ScaleFactorRawToDisplayShift18 : Nat → Int
  RawTriggerLevel : Int
  RawValueMax : Int
  RawValueMin : Int
  TriggerMode : Nat
  isRunning : Bool
  isEffectiveMinMaxMode : Bool

/-- The active entry of the scale table. -/
def MeasurementControlModel.scaleFactor (mc : MeasurementControlModel) : Int :=
  mc.ScaleFactorRawToDisplayShift18 mc.DisplayRangeIndex

/-- Embedding of getDisplayFrowRawInputValue (TouchDSODisplay.cpp,
lines 816 to 842).  The C right shift on the (nonnegative) scaled value
is an arithmetic shift, that is floor division by a power of two. -/
def getDisplayFrowRawInputValue (env : DsoEnv) (mc : MeasurementControlModel)
    (aAdcValue : Int) : Int :=
  if aAdcValue = env.DATABUFFER_INVISIBLE_RAW_VALUE then
    env.DISPLAYBUFFER_INVISIBLE_VALUE
  else
    -- 1. convert raw to signed values if ac range is selected
    let v1 : Int := if mc.ChannelIsACMode then aAdcValue - mc.RawDSOReadingACZero else aAdcValue
    -- 2. adjust with display range offset
    let v2 : Int := v1 - mc.RawOffsetValueForDisplayRange
    if v2 < 0 then
      env.DISPLAY_VALUE_FOR_ZERO
    else
      -- 3. convert raw to display value
      let v3 : Int := Int.fdiv (v2 * mc.scaleFactor) (2 ^ env.DSO_SCALE_FACTOR_SHIFT)
      -- 4. invert and clip value
      if v3 > env.DISPLAY_VALUE_FOR_ZERO then 0
      else env.DISPLAY_VALUE_FOR_ZERO - v3

/-- Embedding of getInputRawFromDisplayValue (TouchDSODisplay.cpp,
lines 869 to 885).  The C division by the scale factor truncates
towards zero, the left shift is multiplication by a power of two. -/
def getInputRawFromDisplayValue (env : DsoEnv) (mc : MeasurementControlModel)
    (aValue : Int) : Int :=
  -- invert value
  let u1 : Int := env.DISPLAY_VALUE_FOR_ZERO - aValue
  -- convert to raw
  let u2 : Int := Int.tdiv (u1 * 2 ^ env.DSO_SCALE_FACTOR_SHIFT) mc.scaleFactor
  -- adjust with offset
  let u3 : Int := u2 + mc.RawOffsetValueForDisplayRange
  -- adjust for zero offset
  if mc.ChannelIsACMode then u3 + mc.RawDSOReadingACZero else u3

/-- Sum of aCount raw buffer values starting at index idx, the
accumulation loop of getDisplayFrowMultipleRawValues. -/
def sumRawValues (data : Nat → Int) (idx : Nat) : Nat → Int
  | 0 => 0
  | n + 1 => data idx + sumRawValues data (idx + 1) n

/-- Embedding of getDisplayFrowMultipleRawValues (TouchDSODisplay.cpp,
lines 850 to 857): sum aCount consecutive raw values, divide by the
count (C division), then map once.  The data pointer is modelled as a
base index into the raw buffer. -/
def getDisplayFrowMultipleRawValues (env : DsoEnv) (mc : MeasurementControlModel)
    (data : Nat → Int) (idx : Nat) (aCount : Nat) : Int :=
  getDisplayFrowRawInputValue env mc (Int.tdiv (sumRawValues data idx aCount) (aCount : Int))

/-- The AC and range offset adjusted value, step 1 and 2 of the mapper. -/
def offsetAdjusted (mc : MeasurementControlModel) (aAdcValue : Int) : Int :=
  (if mc.ChannelIsACMode then aAdcValue - mc.RawDSOReadingACZero else aAdcValue)
    - mc.RawOffsetValueForDisplayRange

/-- The scaled and shifted value, step 3 of the mapper. -/
def scaledValue (env : DsoEnv) (mc : MeasurementControlModel) (aAdcValue : Int) : Int :=
  Int.fdiv (offsetAdjusted mc aAdcValue * mc.scaleFactor) (2 ^ env.DSO_SCALE_FACTOR_SHIFT)

/-- Fields of the global DisplayControl structure read by the render
paths modelled here. -/
structure DisplayControlModel where
  XScale : Int
  drawPixelMode : Bool
  showTriggerInfoLine : Bool
  EraseColor : Int
  TriggerLevelDisplayValue : Int
  ShowFFT : Bool

/-- Cursor state of the regular bulk value pipeline of drawDataBuffer:
the raw data pointer as an index and the running tXScaleCounter. -/
structure ResampleState where
  idx : Nat
  counter : Int
deriving DecidableEq, Repr

/-- Initial tXScaleCounter of a bulk pass: declared as tXScale and
overwritten with -tXScale at the top of the do loop when tXScale <= 0
(drawDataBuffer, lines 188 to 195). -/
def drawDataBufferInitCounter (tXScale : Int) : Int :=
  if tXScale ≤ 0 then -tXScale else tXScale

/-- One column of the regular mode value pipeline of drawDataBuffer
(lines 196 to 238): returns the column value and the updated cursor.
tValue is read from the data buffer before the scaling branch, exactly
as in the source, where some branches overwrite it. -/
def drawDataBufferStep (env : DsoEnv) (mc : MeasurementControlModel) (tXScale : Int)
    (data : Nat → Int) (s : ResampleState) : Int × ResampleState :=
  let tValue := getDisplayFrowRawInputValue env mc (data s.idx)
  if tXScale = 0 then
    (tValue, ⟨s.idx + 1, s.counter⟩)
  else if tXScale < -1 then
    -- compress - get average of multiple values
    (getDisplayFrowMultipleRawValues env mc data s.idx s.counter.toNat,
      ⟨s.idx + s.counter.toNat, s.counter⟩)
  else if tXScale = -1 then
    -- compress by factor 1.5 - every second value is the average of the next two values
    let counter1 := s.counter - 1
    if counter1 < 0 then
      if tValue ≠ env.DISPLAYBUFFER_INVISIBLE_VALUE then
        (Int.tdiv (tValue + getDisplayFrowRawInputValue env mc (data (s.idx + 1))) 2,
          ⟨s.idx + 2, 1⟩)
      else
        (tValue, ⟨s.idx + 1, 1⟩)
    else
      (tValue, ⟨s.idx + 1, counter1⟩)
  else if tXScale = 1 then
    -- expand by factor 1.5 - every second value will be shown 2 times
    let counter1 := s.counter - 1
    if counter1 < 0 then
      (tValue, ⟨s.idx, 2⟩)
    else
      (tValue, ⟨s.idx + 1, counter1⟩)
  else
    -- expand - show value several times
    if s.counter = 0 then
      (tValue, ⟨s.idx + 1, tXScale - 1⟩)
    else
      (tValue, ⟨s.idx, s.counter - 1⟩)

/-- aLength columns of the regular mode bulk value pipeline. -/
def drawDataBufferRun (env : DsoEnv) (mc : MeasurementControlModel) (tXScale : Int)
    (data : Nat → Int) : ResampleState → Nat → List Int
  | _, 0 => []
  | s, n + 1 =>
    let p := drawDataBufferStep env mc tXScale data s
    p.1 :: drawDataBufferRun env mc tXScale data p.2 n

/-- Final cursor after aLength columns of the bulk value pipeline. -/
def drawDataBufferFinal (env : DsoEnv) (mc : MeasurementControlModel) (tXScale : Int)
    (data : Nat → Int) : ResampleState → Nat → ResampleState
  | s, 0 => s
  | s, n + 1 =>
    drawDataBufferFinal env mc tXScale data (drawDataBufferStep env mc tXScale data s).2 n

/-- Reified draw primitives sent to the display sink. -/
inductive DrawCmd where
  | pixel (x y : Int) (color : Int)
  | lineOneX (x y0 y1 : Int) (color : Int)
  | lineRel (x y dx dy : Int) (color : Int)
  | fillRect (x0 y0 x1 y1 : Int) (color : Int)
deriving DecidableEq, Repr

/-- Whether a draw command uses row y as a pixel position or as a line
or fill endpoint. -/
def drawsAtRow (y : Int) : DrawCmd → Bool
  | DrawCmd.pixel _ py _ => py == y
  | DrawCmd.lineOneX _ y0 y1 _ => y0 == y || y1 == y
  | DrawCmd.lineRel _ py _ _ _ => py == y
  | DrawCmd.fillRect _ y0 _ y1 _ => y0 == y || y1 == y

/-- External acquisition state guarding the incremental loop of
drawRemainingDataBufferValues: the next in pointer and the display end
pointer as indices into the data buffer, and the two early exit
flags. -/
structure DataBufferControlModel where
  DataBufferNextInPointer : Nat
  DATABUFFER_DISPLAY_END : Nat
  TriggerPhaseJustEnded : Bool
  DataBufferPreTriggerAreaWrapAround : Bool

/-- Mutable cursor state of the incremental loop: the next draw pointer
as an index and DataBufferControl.NextDrawXValue. -/
structure DrawState where
  drawPtr : Nat
  NextDrawXValue : Nat
deriving DecidableEq, Repr

/-- Embedding of the loop skeleton of drawRemainingDataBufferValues
(lines 353 to 468): guard, lazy wrap of the display cursor, cursor
update and draw pointer increment.  The function returns the processed
(sample index, display column) pairs and the final cursor state.  The
fuel argument only bounds the number of iterations; since every
iteration advances drawPtr towards DataBufferNextInPointer, fuel
DataBufferNextInPointer is always sufficient.  The per column draw
commands of the loop body are modelled separately by
drawRemainingIterCmds. -/
def drawRemainingLoop (env : DsoEnv) (dbc : DataBufferControlModel) :
    DrawState → Nat → List (Nat × Nat) × DrawState
  | s, 0 => ([], s)
  | s, fuel + 1 =>
    if s.drawPtr < dbc.DataBufferNextInPointer ∧ s.drawPtr ≤ dbc.DATABUFFER_DISPLAY_END ∧
        dbc.TriggerPhaseJustEnded = false ∧ dbc.DataBufferPreTriggerAreaWrapAround = false then
      -- wrap around in display buffer
      let tDisplayX : Nat := if s.NextDrawXValue ≥ env.DSO_DISPLAY_WIDTH then 0 else s.NextDrawXValue
      let out := drawRemainingLoop env dbc ⟨s.drawPtr + 1, tDisplayX + 1⟩ fuel
      ((s.drawPtr, tDisplayX) :: out.1, out.2)
    else
      ([], s)

/-- Embedding of one loop body of drawRemainingDataBufferValues in the
LOCAL_DISPLAY_EXISTS build (lines 378 to 466): erase the old pixel or
line at column tDisplayX, map the new raw sample (and the minimum track
sample when min max mode is active) and draw the new pixel or line.
DisplayBuffer and DisplayBufferMin hold the previously rendered rows;
raw and rawMin are the new raw samples at the draw pointer. -/
def drawRemainingIterCmds (env : DsoEnv) (mc : MeasurementControlModel)
    (dc : DisplayControlModel) (tDisplayX : Nat)
    (DisplayBuffer DisplayBufferMin : Nat → Int) (raw rawMin : Int)
    (aDrawColor : Int) : List DrawCmd :=
  let tValue := DisplayBuffer tDisplayX
  let tValueMin := DisplayBufferMin tDisplayX
  let clearCmds :=
    if dc.drawPixelMode then
      -- clear pixel or restore grid
      let tColor := if tDisplayX % env.TIMING_GRID_WIDTH = env.TIMING_GRID_WIDTH - 1 then
          env.COLOR_GRID_LINES else dc.EraseColor
      if tValue ≠ env.DISPLAYBUFFER_INVISIBLE_VALUE then
        DrawCmd.pixel tDisplayX tValue tColor ::
          (if mc.isEffectiveMinMaxMode then [DrawCmd.pixel tDisplayX tValueMin tColor] else [])
      else []
    else
      if tDisplayX < env.DSO_DISPLAY_WIDTH - 1 then
        -- fetch next value and clear line in advance
        let tNextValue := DisplayBuffer (tDisplayX + 1)
        if tNextValue ≠ env.DISPLAYBUFFER_INVISIBLE_VALUE then
          if tValue ≠ env.DISPLAYBUFFER_INVISIBLE_VALUE then
            DrawCmd.lineOneX tDisplayX tValue tNextValue dc.EraseColor ::
              (if mc.isEffectiveMinMaxMode then
                [DrawCmd.lineOneX tDisplayX tValueMin (DisplayBufferMin (tDisplayX + 1)) dc.EraseColor]
              else [])
          else
            DrawCmd.pixel (tDisplayX + 1) tNextValue dc.EraseColor ::
              (if mc.isEffectiveMinMaxMode then
                [DrawCmd.pixel (tDisplayX + 1) (DisplayBufferMin (tDisplayX + 1)) dc.EraseColor]
              else [])
        else []
      else []
  let tNewValue := getDisplayFrowRawInputValue env mc raw
  let tNewValueMin := getDisplayFrowRawInputValue env mc rawMin
  let drawCmds :=
    if dc.drawPixelMode then
      if tNewValue ≠ env.DISPLAYBUFFER_INVISIBLE_VALUE then
        DrawCmd.pixel tDisplayX tNewValue aDrawColor ::
          (if mc.isEffectiveMinMaxMode then [DrawCmd.pixel tDisplayX tNewValueMin aDrawColor] else [])
      else []
    else
      if tDisplayX ≠ 0 ∧ tDisplayX ≤ env.DSO_DISPLAY_WIDTH - 1 then
        if tNewValue ≠ env.DISPLAYBUFFER_INVISIBLE_VALUE then
          let tLastValue := DisplayBuffer (tDisplayX - 1)
          if tLastValue ≠ env.DISPLAYBUFFER_INVISIBLE_VALUE then
            DrawCmd.lineOneX (tDisplayX - 1) tLastValue tNewValue aDrawColor ::
              (if mc.isEffectiveMinMaxMode then
                [DrawCmd.lineOneX (tDisplayX - 1) (DisplayBufferMin (tDisplayX - 1)) tNewValueMin aDrawColor]
              else [])
          else
            DrawCmd.pixel tDisplayX tNewValue aDrawColor ::
              (if mc.isEffectiveMinMaxMode then [DrawCmd.pixel tDisplayX tNewValueMin aDrawColor] else [])
        else []
      else []
  clearCmds ++ drawCmds

/-- Embedding of one regular mode column body of drawDataBuffer in the
LOCAL_DISPLAY_EXISTS build (lines 241 to 318, with
aDrawMode == DRAW_MODE_REGULAR so the grid restore branch is dead):
the trigger state overlay, then the pixel or line drawing.  tValue is
the already resampled and mapped column value, screenOld and
screenOldNext are the stored rows at the current and next position of
the screen buffer read pointer, overlayOld is the stored overlay track
row, and tLastValue and tLastValueClear carry the loop state of the
previous column. -/
def drawDataBufferColumnCmds (env : DsoEnv) (showTriggerInfoLine drawPixelMode : Bool)
    (aClearBeforeColor aColor : Int) (i : Nat)
    (tValue screenOld screenOldNext overlayOld tTriggerValue tLastValue tLastValueClear : Int) :
    List DrawCmd :=
  let overlayCmds :=
    if showTriggerInfoLine then
      (if 0 < aClearBeforeColor then [DrawCmd.pixel i overlayOld aClearBeforeColor] else [])
      ++ (if tTriggerValue < tValue then
            [DrawCmd.pixel i (tTriggerValue - env.TRIGGER_HIGH_DISPLAY_OFFSET) env.COLOR_DATA_TRIGGER]
          else [])
    else []
  let mainCmds :=
    if drawPixelMode ∨ i = 0 then
      -- pixel mode or first value of chart
      (if 0 < aClearBeforeColor then
        (if screenOld ≠ env.DISPLAYBUFFER_INVISIBLE_VALUE then
          [DrawCmd.pixel i screenOld aClearBeforeColor] else [])
        ++ (if ¬drawPixelMode then
              -- i == 0 and line mode: erase first line in advance
              (if screenOldNext ≠ env.DISPLAYBUFFER_INVISIBLE_VALUE then
                [DrawCmd.lineOneX 0 screenOld screenOldNext aClearBeforeColor] else [])
            else [])
      else [])
      ++ (if tValue ≠ env.DISPLAYBUFFER_INVISIBLE_VALUE then [DrawCmd.pixel i tValue aColor] else [])
    else
      -- line mode
      (if 0 < aClearBeforeColor ∧ i ≠ env.DSO_DISPLAY_WIDTH - 1 then
        (if tLastValueClear ≠ env.DISPLAYBUFFER_INVISIBLE_VALUE ∧
            screenOld ≠ env.DISPLAYBUFFER_INVISIBLE_VALUE then
          [DrawCmd.lineOneX i tLastValueClear screenOld aClearBeforeColor] else [])
      else [])
      ++ (if tValue ≠ env.DISPLAYBUFFER_INVISIBLE_VALUE then
            if tLastValue ≠ env.DISPLAYBUFFER_INVISIBLE_VALUE then
              if tLastValue = tValue ∧ (tValue = env.DISPLAY_VALUE_FOR_ZERO ∨ tValue = 0) then
                -- clipping occurs draw red line
                [DrawCmd.lineOneX (i - 1) tLastValue tValue env.COLOR_DATA_RUN_CLIPPING]
              else
                [DrawCmd.lineOneX (i - 1) tLastValue tValue aColor]
            else
              -- first visible value just draw start pixel
              [DrawCmd.pixel i tValue aColor]
          else [])
  overlayCmds ++ mainCmds

/-- Bars k to k + n - 1 of the diff update loop of
draw128FFTValuesFast (lines 544 to 561): each bar occupies the three
pixel columns starting at x = 3 k; a fill is issued for the rectangle
between the previous and the new bar height.  The float transform and
scaling are abstracted as the resulting integer bar heights: heights k
is the uint16 value DSO_DISPLAY_HEIGHT minus the scaled bin k, and
oldBuf k is the height stored in DisplayBufferFFT. -/
def fftBarCmds (env : DsoEnv) (aColor : Int) (heights oldBuf : Nat → Nat) :
    Nat → Nat → List DrawCmd
  | _, 0 => []
  | k, n + 1 =>
    let tDisplayX : Int := 3 * (k : Int)
    let tDisplayY := heights k
    let DisplayYOld := oldBuf k
    (if tDisplayY < DisplayYOld then
      -- increase old bar
      [DrawCmd.fillRect tDisplayX tDisplayY (tDisplayX + 2) DisplayYOld aColor]
    else if DisplayYOld < tDisplayY then
      -- remove part of old bar
      [DrawCmd.fillRect tDisplayX DisplayYOld (tDisplayX + 2) tDisplayY env.COLOR_BACKGROUND_DSO]
    else [])
    ++ fftBarCmds env aColor heights oldBuf (k + 1) n

/-- Number of bars of the fft diff update: the loop steps tDisplayX by
3 while tDisplayX < DSO_DISPLAY_WIDTH. -/
def fftBarCount (env : DsoEnv) : Nat := (env.DSO_DISPLAY_WIDTH + 2) / 3

/-- Embedding of draw128FFTValuesFast (lines 529 to 563): nothing is
drawn unless ShowFFT is active. -/
def draw128FFTValuesFastCmds (env : DsoEnv) (dc : DisplayControlModel) (aColor : Int)
    (heights oldBuf : Nat → Nat) : List DrawCmd :=
  if dc.ShowFFT then fftBarCmds env aColor heights oldBuf 0 (fftBarCount env) else []

/-- Embedding of clearTriggerLine (lines 52 to 70): clear the old line,
restore the grid pixels at the old y position (the loop runs while
tXPos < DSO_DISPLAY_WIDTH - 1, enumerated here in the same order by
filtering the column range), and in analysis mode restore the graph
pixels whose stored row equals the old line position. -/
def clearTriggerLineCmds (env : DsoEnv) (isRunning : Bool) (DisplayBuffer : Nat → Int)
    (aTriggerLevelDisplayValue : Int) : List DrawCmd :=
  DrawCmd.lineRel 0 aTriggerLevelDisplayValue env.DSO_DISPLAY_WIDTH 0 env.COLOR_BACKGROUND_DSO ::
  (((List.range (env.DSO_DISPLAY_WIDTH - 1)).filter
      (fun tXPos => tXPos % env.TIMING_GRID_WIDTH = env.TIMING_GRID_WIDTH - 1)).map
    (fun tXPos : Nat => DrawCmd.pixel tXPos aTriggerLevelDisplayValue env.COLOR_GRID_LINES)
  ++ (if isRunning then [] else
      (List.range env.DSO_DISPLAY_WIDTH).filterMap
        (fun i => if DisplayBuffer i = aTriggerLevelDisplayValue then
            some (DrawCmd.pixel i aTriggerLevelDisplayValue env.COLOR_DATA_HOLD) else none)))

/-- Embedding of drawTriggerLine (lines 75 to 80). -/
def drawTriggerLineCmds (env : DsoEnv) (dc : DisplayControlModel)
    (mc : MeasurementControlModel) : List DrawCmd :=
  if dc.TriggerLevelDisplayValue ≠ 0 ∧ mc.TriggerMode ≠ env.TRIGGER_MODE_OFF then
    [DrawCmd.lineRel 0 dc.TriggerLevelDisplayValue env.DSO_DISPLAY_WIDTH 0 env.COLOR_TRIGGER_LINE]
  else []

/-- Embedding of drawMinMaxLines (lines 137 to 148): the two draw
statements, as an optional command each (none when suppressed). -/
def drawMinMaxLinesCmds (env : DsoEnv) (mc : MeasurementControlModel) :
    Option DrawCmd × Option DrawCmd :=
  let tValueDisplayMax := getDisplayFrowRawInputValue env mc mc.RawValueMax
  let tValueDisplayMin := getDisplayFrowRawInputValue env mc mc.RawValueMin
  ((if tValueDisplayMax ≠ 0 then
      some (DrawCmd.lineRel 0 tValueDisplayMax env.DSO_DISPLAY_WIDTH 0 env.COLOR_MAX_MIN_LINE)
    else none),
   (if tValueDisplayMin ≠ env.DISPLAY_VALUE_FOR_ZERO then
      some (DrawCmd.lineRel 0 tValueDisplayMin env.DSO_DISPLAY_WIDTH 0 env.COLOR_MAX_MIN_LINE)
    else none))

/-- Concrete environment used by the witnesses, consistent with the
spec: 320 columns, zero row 200, identity scale entry at shift 18,
sentinel 255 distinct from every valid row, distinct colors. -/
def envSpec : DsoEnv :=
  { DATABUFFER_INVISIBLE_RAW_VALUE := 4096, DISPLAYBUFFER_INVISIBLE_VALUE := 255,
    DISPLAY_VALUE_FOR_ZERO := 200, DSO_SCALE_FACTOR_SHIFT := 18,
    DSO_DISPLAY_WIDTH := 320, TIMING_GRID_WIDTH := 32,
    TRIGGER_HIGH_DISPLAY_OFFSET := 7, TRIGGER_MODE_OFF := 2,
    COLOR_BACKGROUND_DSO := 0, COLOR_GRID_LINES := 1, COLOR_DATA_HOLD := 2,
    COLOR_TRIGGER_LINE := 3, COLOR_MAX_MIN_LINE := 4, COLOR_DATA_TRIGGER := 5,
    COLOR_DATA_RUN_CLIPPING := 6 }

/-- Concrete measurement state used by the witnesses, the spec test
scenario: range offset 100, identity scale entry, AC mode off. -/
def mcSpec : MeasurementControlModel :=
  { ChannelIsACMode := false, RawDSOReadingACZero := 0,
    RawOffsetValueForDisplayRange := 100, DisplayRangeIndex := 0,
    ScaleFactorRawToDisplayShift18 := fun _ => 2 ^ 18,
    RawTriggerLevel := 0, RawValueMax := 0, RawValueMin := 0,
    TriggerMode := 0, isRunning := true, isEffectiveMinMaxMode := false }

/-- Concrete measurement state with zero range offset and the identity
scale entry at shift 18, for the resampler scenarios. -/
def mcZero : MeasurementControlModel :=
  { ChannelIsACMode := false, RawDSOReadingACZero := 0,
    RawOffsetValueForDisplayRange := 0, DisplayRangeIndex := 0,
    ScaleFactorRawToDisplayShift18 := fun _ => 2 ^ 18,
    RawTriggerLevel := 0, RawValueMax := 0, RawValueMin := 0,
    TriggerMode := 0, isRunning := true, isEffectiveMinMaxMode := false }

/-- Concrete environment with a small scale shift (2), used where fast
kernel evaluation matters. -/
def envTiny : DsoEnv :=
  { DATABUFFER_INVISIBLE_RAW_VALUE := 4096, DISPLAYBUFFER_INVISIBLE_VALUE := 255,
    DISPLAY_VALUE_FOR_ZERO := 200, DSO_SCALE_FACTOR_SHIFT := 2,
    DSO_DISPLAY_WIDTH := 320, TIMING_GRID_WIDTH := 32,
    TRIGGER_HIGH_DISPLAY_OFFSET := 7, TRIGGER_MODE_OFF := 2,
    COLOR_BACKGROUND_DSO := 0, COLOR_GRID_LINES := 1, COLOR_DATA_HOLD := 2,
    COLOR_TRIGGER_LINE := 3, COLOR_MAX_MIN_LINE := 4, COLOR_DATA_TRIGGER := 5,
    COLOR_DATA_RUN_CLIPPING := 6 }

/-- Measurement state matching envTiny: identity scale entry 4 at
shift 2, zero offset, AC mode off. -/
def mcTiny : MeasurementControlModel :=
  { ChannelIsACMode := false, RawDSOReadingACZero := 0,
    RawOffsetValueForDisplayRange := 0, DisplayRangeIndex := 0,
    ScaleFactorRawToDisplayShift18 := fun _ => 4,
    RawTriggerLevel := 0, RawValueMax := 0, RawValueMin := 0,
    TriggerMode := 0, isRunning := true, isEffectiveMinMaxMode := false }

/-- Raw buffer 0, 0, 1 (zero padded), exposing the rounding difference
between averaging raw values and averaging mapped rows. -/
def dataTiny : Nat → Int := fun i => [0, 0, 1].getD i 0

/-- Raw buffer 10, 20 (zero padded), the spec compression scenario. -/
def dataCompress : Nat → Int := fun i => [10, 20].getD i 0

/-- Display control state with the fft shown, for the spectrum
witnesses. -/
def dcFFT : DisplayControlModel :=
  { XScale := 0, drawPixelMode := true, showTriggerInfoLine := false,
    EraseColor := 0, TriggerLevelDisplayValue := 0, ShowFFT := true }

/-- New fft bar heights: bar 0 grows (5 instead of 7), all others
unchanged. -/
def heightsW : Nat → Nat := fun k => if k = 0 then 5 else 7

/-- Previously drawn fft bar heights, all 7. -/
def oldBufW : Nat → Nat := fun _ => 7

/-- C1: for every raw sample other than the reserved no data marker the
mapper returns a row in [0, DISPLAY_VALUE_FOR_ZERO]: a negative offset
adjusted value yields the maximum row DISPLAY_VALUE_FOR_ZERO, a scaled
result above DISPLAY_VALUE_FOR_ZERO yields row 0, and otherwise the row
is DISPLAY_VALUE_FOR_ZERO minus the scaled result. -/
theorem getDisplayFrowRawInputValue_row_range (env : DsoEnv) (mc : MeasurementControlModel)
    (aAdcValue : Int)
    (hmark : aAdcValue ≠ env.DATABUFFER_INVISIBLE_RAW_VALUE)
    (hscale : 0 ≤ mc.scaleFactor)
    (hzero : 0 ≤ env.DISPLAY_VALUE_FOR_ZERO) :
    (0 ≤ getDisplayFrowRawInputValue env mc aAdcValue ∧
      getDisplayFrowRawInputValue env mc aAdcValue ≤ env.DISPLAY_VALUE_FOR_ZERO) ∧
    (offsetAdjusted mc aAdcValue < 0 →
      getDisplayFrowRawInputValue env mc aAdcValue = env.DISPLAY_VALUE_FOR_ZERO) ∧
    (0 ≤ offsetAdjusted mc aAdcValue →
      env.DISPLAY_VALUE_FOR_ZERO < scaledValue env mc aAdcValue →
      getDisplayFrowRawInputValue env mc aAdcValue = 0) ∧
    (0 ≤ offsetAdjusted mc aAdcValue →
      scaledValue env mc aAdcValue ≤ env.DISPLAY_VALUE_FOR_ZERO →
      getDisplayFrowRawInputValue env mc aAdcValue =
        env.DISPLAY_VALUE_FOR_ZERO - scaledValue env mc aAdcValue) := by
  have hpow : (0 : Int) ≤ 2 ^ env.DSO_SCALE_FACTOR_SHIFT := by positivity
  unfold getDisplayFrowRawInputValue offsetAdjusted scaledValue
  rw [if_neg hmark]
  set v2 : Int :=
    (if mc.ChannelIsACMode then aAdcValue - mc.RawDSOReadingACZero else aAdcValue)
      - mc.RawOffsetValueForDisplayRange with hv2
  by_cases hneg : v2 < 0
  · rw [if_pos hneg]
    refine ⟨⟨hzero, le_refl _⟩, fun _ => rfl, fun h2 => absurd hneg (not_lt.mpr h2),
      fun h2 => absurd hneg (not_lt.mpr h2)⟩
  · rw [if_neg hneg]
    have hv2' : 0 ≤ v2 := not_lt.mp hneg
    have hv3 : 0 ≤ Int.fdiv (v2 * mc.scaleFactor) (2 ^ env.DSO_SCALE_FACTOR_SHIFT) :=
      Int.fdiv_nonneg (mul_nonneg hv2' hscale) hpow
    set v3 : Int := Int.fdiv (v2 * mc.scaleFactor) (2 ^ env.DSO_SCALE_FACTOR_SHIFT) with hv3def
    by_cases hclip : v3 > env.DISPLAY_VALUE_FOR_ZERO
    · rw [if_pos hclip]
      exact ⟨⟨le_refl _, hzero⟩, fun h => absurd h (not_lt.mpr hv2'),
        fun _ _ => rfl, fun _ h => absurd hclip (not_lt.mpr h)⟩
    · rw [if_neg hclip]
      push_neg at hclip
      exact ⟨⟨by omega, by omega⟩, fun h => absurd h (not_lt.mpr hv2'),
        fun _ h => absurd h (not_lt.mpr hclip), fun _ _ => rfl⟩

/-- Witness for C1 at the spec scenario: range offset 100, identity
scale entry, zero row 200, AC mode off, raw sample 150 maps to row 150. -/
theorem getDisplayFrowRawInputValue_row_range_witness :
    (150 : Int) ≠ envSpec.DATABUFFER_INVISIBLE_RAW_VALUE ∧
    getDisplayFrowRawInputValue envSpec mcSpec 150 = 150 ∧
    (0 : Int) ≤ 150 ∧ (150 : Int) ≤ envSpec.DISPLAY_VALUE_FOR_ZERO := by
  refine ⟨by decide, ?_, by decide, by decide⟩
  have h := getDisplayFrowRawInputValue_row_range envSpec mcSpec 150
    (by decide) (by norm_num [MeasurementControlModel.scaleFactor, mcSpec])
    (by decide)
  have h4 := h.2.2.2 (by norm_num [offsetAdjusted, mcSpec])
    (by norm_num [scaledValue, offsetAdjusted, MeasurementControlModel.scaleFactor,
      mcSpec, envSpec, Int.fdiv])
  rw [h4]
  norm_num [scaledValue, offsetAdjusted, MeasurementControlModel.scaleFactor,
    mcSpec, envSpec, Int.fdiv]

/-- Helper: on the pre clip domain (not the marker, offset adjusted
value nonnegative, scaled value within the zero row) the mapper takes
the invert branch. -/
theorem getDisplayFrowRawInputValue_eq_of_pre (env : DsoEnv) (mc : MeasurementControlModel)
    (aAdcValue : Int)
    (hmark : aAdcValue ≠ env.DATABUFFER_INVISIBLE_RAW_VALUE)
    (hpre : 0 ≤ offsetAdjusted mc aAdcValue)
    (hclip : scaledValue env mc aAdcValue ≤ env.DISPLAY_VALUE_FOR_ZERO) :
    getDisplayFrowRawInputValue env mc aAdcValue
      = env.DISPLAY_VALUE_FOR_ZERO - scaledValue env mc aAdcValue := by
  unfold offsetAdjusted at hpre
  unfold scaledValue offsetAdjusted at hclip
  unfold getDisplayFrowRawInputValue
  rw [if_neg hmark, if_neg (not_lt.mpr hpre), if_neg (not_lt.mpr hclip)]
  unfold scaledValue offsetAdjusted
  rfl

/-- Helper: quantization error of scaling by S, flooring away a shift
of P, and scaling back with truncation: the recovered value is at most
the original and the loss, multiplied by S, is below P + S. -/
theorem roundTrip_arith (v2 S P : Int) (hS : 0 < S) (hP : 0 < P) (_hv2 : 0 ≤ v2) :
    v2 * S / P * P / S ≤ v2 ∧ S * (v2 - v2 * S / P * P / S) < P + S := by
  have key1 : P * (v2 * S / P) + v2 * S % P = v2 * S := Int.ediv_add_emod _ _
  have he0 : 0 ≤ v2 * S % P := Int.emod_nonneg _ (ne_of_gt hP)
  have he1 : v2 * S % P < P := Int.emod_lt_of_pos _ hP
  have key2 : S * (v2 * S / P * P / S) + v2 * S / P * P % S = v2 * S / P * P :=
    Int.ediv_add_emod _ _
  have he20 : 0 ≤ v2 * S / P * P % S := Int.emod_nonneg _ (ne_of_gt hS)
  have he21 : v2 * S / P * P % S < S := Int.emod_lt_of_pos _ hS
  have hmain : S * (v2 - v2 * S / P * P / S) = v2 * S % P + v2 * S / P * P % S := by
    linear_combination - key1 - key2
  constructor
  · nlinarith [hmain, he0, he20, hS]
  · linarith [hmain, he1, he21]

/-- C2: on the valid pre clip domain the display mapping composed with
getInputRawFromDisplayValue recovers the raw input within one scale
shift unit of rounding error: the recovered raw value never exceeds the
original, and the loss times the scale factor is below one shift
quantum 2 pow DSO_SCALE_FACTOR_SHIFT plus one scale quantum. -/
theorem getInputRawFromDisplayValue_roundTrip (env : DsoEnv) (mc : MeasurementControlModel)
    (aAdcValue : Int)
    (hmark : aAdcValue ≠ env.DATABUFFER_INVISIBLE_RAW_VALUE)
    (hscale : 0 < mc.scaleFactor)
    (hpre : 0 ≤ offsetAdjusted mc aAdcValue)
    (hclip : scaledValue env mc aAdcValue ≤ env.DISPLAY_VALUE_FOR_ZERO) :
    getInputRawFromDisplayValue env mc (getDisplayFrowRawInputValue env mc aAdcValue)
        ≤ aAdcValue ∧
    mc.scaleFactor *
        (aAdcValue -
          getInputRawFromDisplayValue env mc (getDisplayFrowRawInputValue env mc aAdcValue))
      < 2 ^ env.DSO_SCALE_FACTOR_SHIFT + mc.scaleFactor := by
  have hP : (0 : Int) < 2 ^ env.DSO_SCALE_FACTOR_SHIFT := by positivity
  have hfwd := getDisplayFrowRawInputValue_eq_of_pre env mc aAdcValue hmark hpre hclip
  rw [hfwd]
  have hv3nn : 0 ≤ scaledValue env mc aAdcValue := by
    unfold scaledValue
    exact Int.fdiv_nonneg (mul_nonneg hpre hscale.le) hP.le
  have hback : getInputRawFromDisplayValue env mc
      (env.DISPLAY_VALUE_FOR_ZERO - scaledValue env mc aAdcValue)
      = scaledValue env mc aAdcValue * 2 ^ env.DSO_SCALE_FACTOR_SHIFT / mc.scaleFactor
        + mc.RawOffsetValueForDisplayRange
        + (if mc.ChannelIsACMode then mc.RawDSOReadingACZero else 0) := by
    have htd : Int.tdiv (scaledValue env mc aAdcValue * 2 ^ env.DSO_SCALE_FACTOR_SHIFT)
          mc.scaleFactor
        = scaledValue env mc aAdcValue * 2 ^ env.DSO_SCALE_FACTOR_SHIFT / mc.scaleFactor :=
      Int.tdiv_eq_ediv (mul_nonneg hv3nn hP.le) hscale.le
    simp only [getInputRawFromDisplayValue]
    rw [sub_sub_cancel, htd]
    by_cases h : mc.ChannelIsACMode
    · rw [if_pos h, if_pos h]
    · rw [if_neg h, if_neg h, add_zero]
  rw [hback]
  have ha : aAdcValue = offsetAdjusted mc aAdcValue + mc.RawOffsetValueForDisplayRange
      + (if mc.ChannelIsACMode then mc.RawDSOReadingACZero else 0) := by
    unfold offsetAdjusted
    by_cases h : mc.ChannelIsACMode
    · rw [if_pos h, if_pos h]; ring
    · rw [if_neg h, if_neg h]; ring
  have hv3e : scaledValue env mc aAdcValue
      = offsetAdjusted mc aAdcValue * mc.scaleFactor / 2 ^ env.DSO_SCALE_FACTOR_SHIFT := by
    unfold scaledValue
    exact Int.fdiv_eq_ediv _ hP.le
  rw [hv3e]
  have harith := roundTrip_arith (offsetAdjusted mc aAdcValue) mc.scaleFactor
    (2 ^ env.DSO_SCALE_FACTOR_SHIFT) hscale hP hpre
  constructor
  · linarith [harith.1, ha]
  · have h6 : aAdcValue -
        (offsetAdjusted mc aAdcValue * mc.scaleFactor / 2 ^ env.DSO_SCALE_FACTOR_SHIFT
            * 2 ^ env.DSO_SCALE_FACTOR_SHIFT / mc.scaleFactor
          + mc.RawOffsetValueForDisplayRange
          + (if mc.ChannelIsACMode then mc.RawDSOReadingACZero else 0))
        = offsetAdjusted mc aAdcValue -
          offsetAdjusted mc aAdcValue * mc.scaleFactor / 2 ^ env.DSO_SCALE_FACTOR_SHIFT
            * 2 ^ env.DSO_SCALE_FACTOR_SHIFT / mc.scaleFactor := by
      linarith [ha]
    rw [h6]
    exact harith.2

/-- Witness for C2 at the spec scenario: raw 150 maps to row 150 and is
recovered exactly. -/
theorem getInputRawFromDisplayValue_roundTrip_witness :
    (150 : Int) ≠ envSpec.DATABUFFER_INVISIBLE_RAW_VALUE ∧ 0 < mcSpec.scaleFactor ∧
    0 ≤ offsetAdjusted mcSpec 150 ∧
    scaledValue envSpec mcSpec 150 ≤ envSpec.DISPLAY_VALUE_FOR_ZERO ∧
    getInputRawFromDisplayValue envSpec mcSpec (getDisplayFrowRawInputValue envSpec mcSpec 150)
        ≤ 150 ∧
    mcSpec.scaleFactor *
        (150 - getInputRawFromDisplayValue envSpec mcSpec
          (getDisplayFrowRawInputValue envSpec mcSpec 150))
      < 2 ^ envSpec.DSO_SCALE_FACTOR_SHIFT + mcSpec.scaleFactor := by
  refine ⟨by decide, by decide, by decide, by decide, ?_, ?_⟩
  · exact (getInputRawFromDisplayValue_roundTrip envSpec mcSpec 150
      (by decide) (by decide) (by decide) (by decide)).1
  · exact (getInputRawFromDisplayValue_roundTrip envSpec mcSpec 150
      (by decide) (by decide) (by decide) (by decide)).2

/-- Helper: in the compress branch (tXScale below -1) one column maps
the average of counter many consecutive raw samples and advances the
data pointer by counter, leaving the counter unchanged. -/
theorem drawDataBufferStep_compress (env : DsoEnv) (mc : MeasurementControlModel)
    (k : Nat) (hk : 2 ≤ k) (data : Nat → Int) (idx : Nat) :
    drawDataBufferStep env mc (-(k : Int)) data ⟨idx, (k : Int)⟩
      = (getDisplayFrowMultipleRawValues env mc data idx k, ⟨idx + k, (k : Int)⟩) := by
  have h0 : ¬(-(k : Int) = 0) := by omega
  have h1 : -(k : Int) < -1 := by omega
  unfold drawDataBufferStep
  rw [if_neg h0, if_pos h1]
  simp

/-- Helper: column i of a compress pass maps the raw average of the
samples idx0 + i k to idx0 + i k + k - 1. -/
theorem drawDataBufferRun_compress_getD (env : DsoEnv) (mc : MeasurementControlModel)
    (k : Nat) (hk : 2 ≤ k) (data : Nat → Int) :
    ∀ (n idx0 i : Nat), i < n →
      (drawDataBufferRun env mc (-(k : Int)) data ⟨idx0, (k : Int)⟩ n).getD i 0
        = getDisplayFrowMultipleRawValues env mc data (idx0 + i * k) k := by
  intro n
  induction n with
  | zero => intro idx0 i hi; exact absurd hi (Nat.not_lt_zero i)
  | succ n ih =>
    intro idx0 i hi
    have hstep := drawDataBufferStep_compress env mc k hk data idx0
    simp only [drawDataBufferRun, hstep]
    cases i with
    | zero => simp
    | succ i =>
      rw [List.getD_cons_succ, ih (idx0 + k) i (Nat.lt_of_succ_lt_succ hi)]
      have harith : idx0 + k + i * k = idx0 + (i + 1) * k := by ring
      rw [harith]

/-- Helper: a compress pass of n columns consumes exactly n times k raw
samples. -/
theorem drawDataBufferFinal_compress (env : DsoEnv) (mc : MeasurementControlModel)
    (k : Nat) (hk : 2 ≤ k) (data : Nat → Int) :
    ∀ (n idx0 : Nat),
      (drawDataBufferFinal env mc (-(k : Int)) data ⟨idx0, (k : Int)⟩ n).idx = idx0 + n * k := by
  intro n
  induction n with
  | zero => intro idx0; simp [drawDataBufferFinal]
  | succ n ih =>
    intro idx0
    have hstep := drawDataBufferStep_compress env mc k hk data idx0
    simp only [drawDataBufferFinal, hstep]
    rw [ih (idx0 + k)]
    ring

/-- C3: for a compression ratio below -1 every produced display column
of a regular bulk pass consumes k consecutive raw samples (the data
pointer advances by k per column) and its value is the mapper applied
once to the truncated average of the raw sample sum, via
getDisplayFrowMultipleRawValues, not an average of already mapped
rows. -/
theorem drawDataBuffer_compress_mapsRawAverage (env : DsoEnv) (mc : MeasurementControlModel)
    (k : Nat) (hk : 2 ≤ k) (data : Nat → Int) (aLength idx0 : Nat) :
    (∀ i, i < aLength →
      (drawDataBufferRun env mc (-(k : Int)) data
          ⟨idx0, drawDataBufferInitCounter (-(k : Int))⟩ aLength).getD i 0
        = getDisplayFrowMultipleRawValues env mc data (idx0 + i * k) k) ∧
    (drawDataBufferFinal env mc (-(k : Int)) data
        ⟨idx0, drawDataBufferInitCounter (-(k : Int))⟩ aLength).idx = idx0 + aLength * k := by
  have hinit : drawDataBufferInitCounter (-(k : Int)) = (k : Int) := by
    unfold drawDataBufferInitCounter
    rw [if_pos (by omega : -(k : Int) ≤ 0)]
    omega
  rw [hinit]
  exact ⟨fun i hi => drawDataBufferRun_compress_getD env mc k hk data aLength idx0 i hi,
    drawDataBufferFinal_compress env mc k hk data aLength idx0⟩

/-- Witness for C3 at the spec scenario: ratio -2, raw samples 10 and
20, passthrough state: the single column maps the combined raw average
15 through the shared pipeline. -/
theorem drawDataBuffer_compress_mapsRawAverage_witness :
    2 ≤ 2 ∧
    (drawDataBufferRun envSpec mcZero (-((2 : Nat) : Int)) dataCompress
        ⟨0, drawDataBufferInitCounter (-((2 : Nat) : Int))⟩ 1).getD 0 0
      = getDisplayFrowMultipleRawValues envSpec mcZero dataCompress 0 2 ∧
    getDisplayFrowMultipleRawValues envSpec mcZero dataCompress 0 2
      = getDisplayFrowRawInputValue envSpec mcZero 15 := by
  refine ⟨by decide, ?_, by decide⟩
  have h := (drawDataBuffer_compress_mapsRawAverage envSpec mcZero 2 (by decide)
    dataCompress 1 0).1 0 (by decide)
  simpa using h

/-- Helper: at ratio -1 a column starting with counter 1 emits the
mapped raw sample and decrements the counter. -/
theorem drawDataBufferStep_ratioMinusOne_first (env : DsoEnv) (mc : MeasurementControlModel)
    (data : Nat → Int) (idx : Nat) :
    drawDataBufferStep env mc (-1) data ⟨idx, 1⟩
      = (getDisplayFrowRawInputValue env mc (data idx), ⟨idx + 1, 0⟩) := by
  unfold drawDataBufferStep
  rw [if_neg (by norm_num : ¬(-1 : Int) = 0), if_neg (by norm_num : ¬(-1 : Int) < -1),
    if_pos rfl, if_neg (by norm_num : ¬((1 : Int) - 1 < 0))]
  norm_num

/-- Helper: at ratio -1 a column starting with counter 0 (and a visible
first sample) emits the truncated average of the two mapped rows and
consumes two samples. -/
theorem drawDataBufferStep_ratioMinusOne_second (env : DsoEnv) (mc : MeasurementControlModel)
    (data : Nat → Int) (idx : Nat)
    (hvis : getDisplayFrowRawInputValue env mc (data idx) ≠ env.DISPLAYBUFFER_INVISIBLE_VALUE) :
    drawDataBufferStep env mc (-1) data ⟨idx, 0⟩
      = (Int.tdiv (getDisplayFrowRawInputValue env mc (data idx)
            + getDisplayFrowRawInputValue env mc (data (idx + 1))) 2, ⟨idx + 2, 1⟩) := by
  unfold drawDataBufferStep
  rw [if_neg (by norm_num : ¬(-1 : Int) = 0), if_neg (by norm_num : ¬(-1 : Int) < -1),
    if_pos rfl, if_pos (by norm_num : ((0 : Int) - 1 < 0)), if_pos hvis]

/-- C4 counterexample: at ratio -1 with raw samples 0, 0, 1 under the
passthrough state the averaged column is 199, the truncated average of
the two already mapped rows 200 and 199, whereas mapping the raw
average (0 + 1) / 2 = 0 once gives 200.  The claim that the averaged
column equals the mapper applied once to the raw average is therefore
false on the code. -/
theorem drawDataBuffer_ratioMinusOne_counterexample :
    (drawDataBufferRun envTiny mcTiny (-1) dataTiny
        ⟨0, drawDataBufferInitCounter (-1)⟩ 2).getD 1 0 = 199 ∧
    getDisplayFrowRawInputValue envTiny mcTiny (Int.tdiv (dataTiny 1 + dataTiny 2) 2) = 200 ∧
    (199 : Int) ≠ 200 := by decide

/-- C4 amended: at ratio -1 a regular bulk pass alternates between one
raw derived column and one two sample averaged column; the averaged
column is the truncated average of the two already mapped rows (map
each sample, then average the rows), not the mapper applied to the raw
average. -/
theorem drawDataBuffer_ratioMinusOne_alternation (env : DsoEnv) (mc : MeasurementControlModel)
    (data : Nat → Int)
    (hvis : ∀ i, getDisplayFrowRawInputValue env mc (data i) ≠ env.DISPLAYBUFFER_INVISIBLE_VALUE) :
    ∀ (m idx0 j : Nat), j < m →
      (drawDataBufferRun env mc (-1) data
          ⟨idx0, drawDataBufferInitCounter (-1)⟩ (2 * m)).getD (2 * j) 0
        = getDisplayFrowRawInputValue env mc (data (idx0 + 3 * j)) ∧
      (drawDataBufferRun env mc (-1) data
          ⟨idx0, drawDataBufferInitCounter (-1)⟩ (2 * m)).getD (2 * j + 1) 0
        = Int.tdiv (getDisplayFrowRawInputValue env mc (data (idx0 + 3 * j + 1))
            + getDisplayFrowRawInputValue env mc (data (idx0 + 3 * j + 2))) 2 := by
  have hinit : drawDataBufferInitCounter (-1) = 1 := by decide
  rw [hinit]
  intro m
  induction m with
  | zero => intro idx0 j hj; exact absurd hj (Nat.not_lt_zero j)
  | succ m ih =>
    intro idx0 j hj
    have h2 : 2 * (m + 1) = 2 * m + 1 + 1 := by ring
    rw [h2]
    have hs1 := drawDataBufferStep_ratioMinusOne_first env mc data idx0
    have hs2 := drawDataBufferStep_ratioMinusOne_second env mc data (idx0 + 1) (hvis (idx0 + 1))
    simp only [drawDataBufferRun, hs1, hs2]
    cases j with
    | zero =>
      constructor
      · norm_num
      · norm_num
    | succ j =>
      have e1 : 2 * (j + 1) = 2 * j + 1 + 1 := by ring
      rw [e1]
      simp only [List.getD_cons_succ]
      have e7 : idx0 + 1 + 2 = idx0 + 3 := by ring
      rw [e7]
      have hih := ih (idx0 + 3) j (Nat.lt_of_succ_lt_succ hj)
      rw [hih.1, hih.2]
      constructor
      · have e4 : idx0 + 3 + 3 * j = idx0 + 3 * (j + 1) := by ring
        rw [e4]
      · have e5 : idx0 + 3 + 3 * j + 1 = idx0 + 3 * (j + 1) + 1 := by ring
        have e6 : idx0 + 3 + 3 * j + 2 = idx0 + 3 * (j + 1) + 2 := by ring
        rw [e5, e6]

/-- Witness for the amended C4 at the concrete passthrough state:
column 0 is the mapped first sample and column 1 the averaged mapped
rows of samples 1 and 2. -/
theorem drawDataBuffer_ratioMinusOne_alternation_witness :
    (drawDataBufferRun envTiny mcTiny (-1) dataTiny
        ⟨0, drawDataBufferInitCounter (-1)⟩ 2).getD 0 0
      = getDisplayFrowRawInputValue envTiny mcTiny (dataTiny 0) ∧
    (drawDataBufferRun envTiny mcTiny (-1) dataTiny
        ⟨0, drawDataBufferInitCounter (-1)⟩ 2).getD 1 0
      = Int.tdiv (getDisplayFrowRawInputValue envTiny mcTiny (dataTiny 1)
          + getDisplayFrowRawInputValue envTiny mcTiny (dataTiny 2)) 2 := by
  have hvis : ∀ i, getDisplayFrowRawInputValue envTiny mcTiny (dataTiny i)
      ≠ envTiny.DISPLAYBUFFER_INVISIBLE_VALUE := by
    intro i
    match i with
    | 0 => decide
    | 1 => decide
    | 2 => decide
    | n + 3 =>
      have hd : dataTiny (n + 3) = 0 := rfl
      rw [hd]
      decide
  have h := drawDataBuffer_ratioMinusOne_alternation envTiny mcTiny dataTiny hvis 1 0 0
    (by decide)
  simpa using h

/-- Helper: the lazy wrap of the display cursor equals reduction modulo
the display width for cursors in [0, width]. -/
theorem wrapX_mod (W x : Nat) (_hW : 0 < W) (hx : x ≤ W) :
    (if x ≥ W then 0 else x) = x % W := by
  by_cases h : x ≥ W
  · rw [if_pos h]
    have hxW : x = W := le_antisymm hx h
    rw [hxW, Nat.mod_self]
  · rw [if_neg h]
    rw [Nat.mod_eq_of_lt (not_le.mp h)]

/-- C5 counterexample: starting from the in range cursor 319 (that is
displayWidth - 1 after a wrap) one consumed sample leaves
NextDrawXValue = 320 = displayWidth, which is outside [0, displayWidth);
the stored cursor only wraps lazily at the next read.  The claimed
invariant NextDrawXValue < displayWidth is therefore false on the
code. -/
theorem nextDrawXValue_reaches_width_counterexample :
    (319 : Nat) < envSpec.DSO_DISPLAY_WIDTH ∧
    (drawRemainingLoop envSpec
        { DataBufferNextInPointer := 1, DATABUFFER_DISPLAY_END := 10,
          TriggerPhaseJustEnded := false, DataBufferPreTriggerAreaWrapAround := false }
        ⟨0, 319⟩ 1).2.NextDrawXValue = envSpec.DSO_DISPLAY_WIDTH ∧
    ¬((drawRemainingLoop envSpec
        { DataBufferNextInPointer := 1, DATABUFFER_DISPLAY_END := 10,
          TriggerPhaseJustEnded := false, DataBufferPreTriggerAreaWrapAround := false }
        ⟨0, 319⟩ 1).2.NextDrawXValue < envSpec.DSO_DISPLAY_WIDTH) := by decide

/-- C5 amended: the effective draw column of the incremental loop is
always in [0, displayWidth): starting from any stored cursor in
[0, displayWidth], the i-th processed column equals (first column + i)
modulo the display width, so the column sequence wraps to 0 exactly
once every displayWidth samples, and the stored cursor itself stays in
[0, displayWidth] (reaching displayWidth only transiently after a
render at column displayWidth - 1, wrapping on the next read). -/
theorem drawRemaining_cursor_wrap (env : DsoEnv) (dbc : DataBufferControlModel)
    (hW : 0 < env.DSO_DISPLAY_WIDTH) :
    ∀ (fuel : Nat) (s : DrawState), s.NextDrawXValue ≤ env.DSO_DISPLAY_WIDTH →
      (∀ i, i < (drawRemainingLoop env dbc s fuel).1.length →
        ((drawRemainingLoop env dbc s fuel).1.getD i (0, 0)).2
          = ((if s.NextDrawXValue ≥ env.DSO_DISPLAY_WIDTH then 0 else s.NextDrawXValue) + i)
              % env.DSO_DISPLAY_WIDTH) ∧
      (drawRemainingLoop env dbc s fuel).2.NextDrawXValue ≤ env.DSO_DISPLAY_WIDTH := by
  intro fuel
  induction fuel with
  | zero =>
    intro s hx
    exact ⟨fun i hi => absurd hi (by simp [drawRemainingLoop]),
      by simpa [drawRemainingLoop] using hx⟩
  | succ fuel ih =>
    intro s hx
    by_cases hg : s.drawPtr < dbc.DataBufferNextInPointer ∧
        s.drawPtr ≤ dbc.DATABUFFER_DISPLAY_END ∧
        dbc.TriggerPhaseJustEnded = false ∧ dbc.DataBufferPreTriggerAreaWrapAround = false
    · have hunfold : drawRemainingLoop env dbc s (fuel + 1)
          = ((s.drawPtr,
                if s.NextDrawXValue ≥ env.DSO_DISPLAY_WIDTH then 0 else s.NextDrawXValue)
              :: (drawRemainingLoop env dbc
                  ⟨s.drawPtr + 1,
                    (if s.NextDrawXValue ≥ env.DSO_DISPLAY_WIDTH then 0
                      else s.NextDrawXValue) + 1⟩ fuel).1,
              (drawRemainingLoop env dbc
                  ⟨s.drawPtr + 1,
                    (if s.NextDrawXValue ≥ env.DSO_DISPLAY_WIDTH then 0
                      else s.NextDrawXValue) + 1⟩ fuel).2) := by
        simp only [drawRemainingLoop, if_pos hg]
      set c : Nat := if s.NextDrawXValue ≥ env.DSO_DISPLAY_WIDTH then 0 else s.NextDrawXValue
        with hc
      have hcW : c < env.DSO_DISPLAY_WIDTH := by
        rw [hc]
        by_cases h : s.NextDrawXValue ≥ env.DSO_DISPLAY_WIDTH
        · rw [if_pos h]; exact hW
        · rw [if_neg h]; omega
      have hih := ih ⟨s.drawPtr + 1, c + 1⟩ hcW
      rw [hunfold]
      constructor
      · intro i hi
        cases i with
        | zero =>
          simp only [List.getD_cons_zero]
          rw [Nat.add_zero, Nat.mod_eq_of_lt hcW]
        | succ i =>
          simp only [List.getD_cons_succ]
          simp only [List.length_cons] at hi
          rw [hih.1 i (Nat.lt_of_succ_lt_succ hi)]
          have hwrap : (if c + 1 ≥ env.DSO_DISPLAY_WIDTH then 0 else c + 1)
              = (c + 1) % env.DSO_DISPLAY_WIDTH := wrapX_mod _ _ hW hcW
          rw [hwrap, Nat.mod_add_mod]
          have harith : c + 1 + i = c + (i + 1) := by ring
          rw [harith]
      · exact hih.2
    · have hunfold : drawRemainingLoop env dbc s (fuel + 1) = ([], s) := by
        simp only [drawRemainingLoop, if_neg hg]
      rw [hunfold]
      exact ⟨fun i hi => absurd hi (by simp), hx⟩

/-- Witness for the amended C5: two samples from cursor 0 land on
columns 0 and 1 and the final cursor stays within the width bound. -/
theorem drawRemaining_cursor_wrap_witness :
    ((drawRemainingLoop envSpec
        { DataBufferNextInPointer := 2, DATABUFFER_DISPLAY_END := 10,
          TriggerPhaseJustEnded := false, DataBufferPreTriggerAreaWrapAround := false }
        ⟨0, 0⟩ 2).1.getD 1 (0, 0)).2 = 1 ∧
    (drawRemainingLoop envSpec
        { DataBufferNextInPointer := 2, DATABUFFER_DISPLAY_END := 10,
          TriggerPhaseJustEnded := false, DataBufferPreTriggerAreaWrapAround := false }
        ⟨0, 0⟩ 2).2.NextDrawXValue ≤ envSpec.DSO_DISPLAY_WIDTH := by
  constructor
  · have h := (drawRemaining_cursor_wrap envSpec
      { DataBufferNextInPointer := 2, DATABUFFER_DISPLAY_END := 10,
        TriggerPhaseJustEnded := false, DataBufferPreTriggerAreaWrapAround := false }
      (by decide) 2 ⟨0, 0⟩ (by decide)).1 1 (by decide)
    rw [h]
    decide
  · exact (drawRemaining_cursor_wrap envSpec
      { DataBufferNextInPointer := 2, DATABUFFER_DISPLAY_END := 10,
        TriggerPhaseJustEnded := false, DataBufferPreTriggerAreaWrapAround := false }
      (by decide) 2 ⟨0, 0⟩ (by decide)).2

/-- C8: a call of drawRemainingDataBufferValues processes a column only
for sample positions strictly before the external next in pointer and
not past the display end position, and when the trigger phase just
ended flag or the pre trigger wraparound flag is set the loop exits at
once, processing no column at all. -/
theorem drawRemaining_guard_bounds (env : DsoEnv) (dbc : DataBufferControlModel) :
    ∀ (fuel : Nat) (s : DrawState),
      ((dbc.TriggerPhaseJustEnded = true ∨ dbc.DataBufferPreTriggerAreaWrapAround = true) →
        (drawRemainingLoop env dbc s fuel).1 = []) ∧
      (∀ p ∈ (drawRemainingLoop env dbc s fuel).1,
        p.1 < dbc.DataBufferNextInPointer ∧ p.1 ≤ dbc.DATABUFFER_DISPLAY_END) := by
  intro fuel
  induction fuel with
  | zero =>
    intro s
    exact ⟨fun _ => rfl, fun p hp => absurd hp (by simp [drawRemainingLoop])⟩
  | succ fuel ih =>
    intro s
    by_cases hg : s.drawPtr < dbc.DataBufferNextInPointer ∧
        s.drawPtr ≤ dbc.DATABUFFER_DISPLAY_END ∧
        dbc.TriggerPhaseJustEnded = false ∧ dbc.DataBufferPreTriggerAreaWrapAround = false
    · have hunfold : drawRemainingLoop env dbc s (fuel + 1)
          = ((s.drawPtr,
                if s.NextDrawXValue ≥ env.DSO_DISPLAY_WIDTH then 0 else s.NextDrawXValue)
              :: (drawRemainingLoop env dbc
                  ⟨s.drawPtr + 1,
                    (if s.NextDrawXValue ≥ env.DSO_DISPLAY_WIDTH then 0
                      else s.NextDrawXValue) + 1⟩ fuel).1,
              (drawRemainingLoop env dbc
                  ⟨s.drawPtr + 1,
                    (if s.NextDrawXValue ≥ env.DSO_DISPLAY_WIDTH then 0
                      else s.NextDrawXValue) + 1⟩ fuel).2) := by
        simp only [drawRemainingLoop, if_pos hg]
      obtain ⟨h1, h2, h3, h4⟩ := hg
      constructor
      · intro hflag
        rcases hflag with hf | hf
        · rw [hf] at h3; exact absurd h3 (by simp)
        · rw [hf] at h4; exact absurd h4 (by simp)
      · intro p hp
        rw [hunfold] at hp
        rcases List.mem_cons.mp hp with heq | hmem
        · rw [heq]
          exact ⟨h1, h2⟩
        · exact (ih ⟨s.drawPtr + 1,
            (if s.NextDrawXValue ≥ env.DSO_DISPLAY_WIDTH then 0
              else s.NextDrawXValue) + 1⟩).2 p hmem
    · have hunfold : drawRemainingLoop env dbc s (fuel + 1) = ([], s) := by
        simp only [drawRemainingLoop, if_neg hg]
      rw [hunfold]
      exact ⟨fun _ => rfl, fun p hp => absurd hp (by simp)⟩

/-- Witness for C8: with the trigger phase just ended flag set no
column is processed, and with both flags clear every processed sample
index is below the next in cursor and the display end. -/
theorem drawRemaining_guard_bounds_witness :
    (drawRemainingLoop envSpec
        { DataBufferNextInPointer := 5, DATABUFFER_DISPLAY_END := 10,
          TriggerPhaseJustEnded := true, DataBufferPreTriggerAreaWrapAround := false }
        ⟨0, 0⟩ 5).1 = [] ∧
    (∀ p ∈ (drawRemainingLoop envSpec
        { DataBufferNextInPointer := 2, DATABUFFER_DISPLAY_END := 10,
          TriggerPhaseJustEnded := false, DataBufferPreTriggerAreaWrapAround := false }
        ⟨0, 0⟩ 5).1, p.1 < 2 ∧ p.1 ≤ 10) := by
  constructor
  · exact (drawRemaining_guard_bounds envSpec
      { DataBufferNextInPointer := 5, DATABUFFER_DISPLAY_END := 10,
        TriggerPhaseJustEnded := true, DataBufferPreTriggerAreaWrapAround := false }
      5 ⟨0, 0⟩).1 (Or.inl rfl)
  · exact (drawRemaining_guard_bounds envSpec
      { DataBufferNextInPointer := 2, DATABUFFER_DISPLAY_END := 10,
        TriggerPhaseJustEnded := false, DataBufferPreTriggerAreaWrapAround := false }
      5 ⟨0, 0⟩).2

/-- Helper: every fill emitted by the fft bar loop belongs to some bar
k in the processed range whose height changed, and is exactly the delta
rectangle of that bar, spanning columns 3 k to 3 k + 2. -/
theorem fftBarCmds_sound (env : DsoEnv) (aColor : Int) (heights oldBuf : Nat → Nat) :
    ∀ (n k0 : Nat), ∀ c ∈ fftBarCmds env aColor heights oldBuf k0 n,
      ∃ k, k0 ≤ k ∧ k < k0 + n ∧ heights k ≠ oldBuf k ∧
        ((heights k < oldBuf k ∧
            c = DrawCmd.fillRect (3 * (k : Int)) (heights k) (3 * (k : Int) + 2) (oldBuf k)
                aColor)
          ∨ (oldBuf k < heights k ∧
            c = DrawCmd.fillRect (3 * (k : Int)) (oldBuf k) (3 * (k : Int) + 2) (heights k)
                env.COLOR_BACKGROUND_DSO)) := by
  intro n
  induction n with
  | zero =>
    intro k0 c hc
    exact absurd hc (by simp [fftBarCmds])
  | succ n ih =>
    intro k0 c hc
    simp only [fftBarCmds] at hc
    rcases List.mem_append.mp hc with h | h
    · by_cases h1 : heights k0 < oldBuf k0
      · rw [if_pos h1] at h
        have hc0 := List.mem_singleton.mp h
        exact ⟨k0, le_refl _, by omega, by omega, Or.inl ⟨h1, hc0⟩⟩
      · rw [if_neg h1] at h
        by_cases h2 : oldBuf k0 < heights k0
        · rw [if_pos h2] at h
          have hc0 := List.mem_singleton.mp h
          exact ⟨k0, le_refl _, by omega, by omega, Or.inr ⟨h2, hc0⟩⟩
        · rw [if_neg h2] at h
          exact absurd h (by simp)
    · obtain ⟨k, hk0, hkn, hne, hcase⟩ := ih (k0 + 1) c h
      exact ⟨k, by omega, by omega, hne, hcase⟩

/-- Helper: every bar in the processed range whose height changed has
its delta rectangle among the emitted fills. -/
theorem fftBarCmds_complete (env : DsoEnv) (aColor : Int) (heights oldBuf : Nat → Nat) :
    ∀ (n k0 k : Nat), k0 ≤ k → k < k0 + n →
      (heights k < oldBuf k →
        DrawCmd.fillRect (3 * (k : Int)) (heights k) (3 * (k : Int) + 2) (oldBuf k) aColor
          ∈ fftBarCmds env aColor heights oldBuf k0 n) ∧
      (oldBuf k < heights k →
        DrawCmd.fillRect (3 * (k : Int)) (oldBuf k) (3 * (k : Int) + 2) (heights k)
            env.COLOR_BACKGROUND_DSO
          ∈ fftBarCmds env aColor heights oldBuf k0 n) := by
  intro n
  induction n with
  | zero =>
    intro k0 k hk0 hkn
    omega
  | succ n ih =>
    intro k0 k hk0 hkn
    by_cases hk : k = k0
    · subst hk
      constructor
      · intro h1
        simp only [fftBarCmds]
        refine List.mem_append_left _ ?_
        rw [if_pos h1]
        exact List.mem_singleton.mpr rfl
      · intro h2
        simp only [fftBarCmds]
        refine List.mem_append_left _ ?_
        rw [if_neg (by omega : ¬ heights k < oldBuf k), if_pos h2]
        exact List.mem_singleton.mpr rfl
    · have hrec := ih (k0 + 1) k (by omega) (by omega)
      constructor
      · intro h1
        simp only [fftBarCmds]
        exact List.mem_append_right _ (hrec.1 h1)
      · intro h2
        simp only [fftBarCmds]
        exact List.mem_append_right _ (hrec.2 h2)

/-- C7: with the fft shown, every fill issued by draw128FFTValuesFast
for bar k spans exactly the x range 3 k to 3 k + 2 (never outside the
own three pixel column span of the bar) and is issued only for a bar
whose newly computed height differs from the height previously stored
in DisplayBufferFFT; conversely a grown bar fills its delta in the data
color and a shrunk bar fills the vacated delta in the background
color. -/
theorem draw128FFTValuesFast_diff_containment (env : DsoEnv) (dc : DisplayControlModel)
    (aColor : Int) (heights oldBuf : Nat → Nat) (hshow : dc.ShowFFT = true) :
    (∀ c ∈ draw128FFTValuesFastCmds env dc aColor heights oldBuf,
      ∃ k, k < fftBarCount env ∧ heights k ≠ oldBuf k ∧
        ((heights k < oldBuf k ∧
            c = DrawCmd.fillRect (3 * (k : Int)) (heights k) (3 * (k : Int) + 2) (oldBuf k)
                aColor)
          ∨ (oldBuf k < heights k ∧
            c = DrawCmd.fillRect (3 * (k : Int)) (oldBuf k) (3 * (k : Int) + 2) (heights k)
                env.COLOR_BACKGROUND_DSO))) ∧
    (∀ k, k < fftBarCount env →
      (heights k < oldBuf k →
        DrawCmd.fillRect (3 * (k : Int)) (heights k) (3 * (k : Int) + 2) (oldBuf k) aColor
          ∈ draw128FFTValuesFastCmds env dc aColor heights oldBuf) ∧
      (oldBuf k < heights k →
        DrawCmd.fillRect (3 * (k : Int)) (oldBuf k) (3 * (k : Int) + 2) (heights k)
            env.COLOR_BACKGROUND_DSO
          ∈ draw128FFTValuesFastCmds env dc aColor heights oldBuf)) := by
  have hcmds : draw128FFTValuesFastCmds env dc aColor heights oldBuf
      = fftBarCmds env aColor heights oldBuf 0 (fftBarCount env) := by
    unfold draw128FFTValuesFastCmds
    rw [hshow]
    rfl
  rw [hcmds]
  constructor
  · intro c hc
    obtain ⟨k, _, hkn, hne, hcase⟩ := fftBarCmds_sound env aColor heights oldBuf
      (fftBarCount env) 0 c hc
    exact ⟨k, by omega, hne, hcase⟩
  · intro k hk
    exact fftBarCmds_complete env aColor heights oldBuf (fftBarCount env) 0 k
      (Nat.zero_le k) (by omega)

/-- Witness for C7: with bar 0 growing from old height 7 to new height
5 the grow fill for columns 0 to 2 is emitted. -/
theorem draw128FFTValuesFast_diff_containment_witness :
    DrawCmd.fillRect 0 5 2 7 9 ∈ draw128FFTValuesFastCmds envSpec dcFFT 9 heightsW oldBufW := by
  have h := ((draw128FFTValuesFast_diff_containment envSpec dcFFT 9 heightsW oldBufW rfl).2
    0 (by decide)).1 (by decide)
  simpa [heightsW, oldBufW] using h

/-- C10: drawMinMaxLines draws the maximum line exactly when the mapped
display value of RawValueMax is not 0 (not clipped to the top row), and
the minimum line exactly when the mapped display value of RawValueMin
is not DISPLAY_VALUE_FOR_ZERO (not clipped to the bottom row); a
clipped extremum produces no draw call. -/
theorem drawMinMaxLines_clipped_suppression (env : DsoEnv) (mc : MeasurementControlModel) :
    ((drawMinMaxLinesCmds env mc).1 = none ↔
      getDisplayFrowRawInputValue env mc mc.RawValueMax = 0) ∧
    (getDisplayFrowRawInputValue env mc mc.RawValueMax ≠ 0 →
      (drawMinMaxLinesCmds env mc).1
        = some (DrawCmd.lineRel 0 (getDisplayFrowRawInputValue env mc mc.RawValueMax)
            env.DSO_DISPLAY_WIDTH 0 env.COLOR_MAX_MIN_LINE)) ∧
    ((drawMinMaxLinesCmds env mc).2 = none ↔
      getDisplayFrowRawInputValue env mc mc.RawValueMin = env.DISPLAY_VALUE_FOR_ZERO) ∧
    (getDisplayFrowRawInputValue env mc mc.RawValueMin ≠ env.DISPLAY_VALUE_FOR_ZERO →
      (drawMinMaxLinesCmds env mc).2
        = some (DrawCmd.lineRel 0 (getDisplayFrowRawInputValue env mc mc.RawValueMin)
            env.DSO_DISPLAY_WIDTH 0 env.COLOR_MAX_MIN_LINE)) := by
  by_cases h1 : getDisplayFrowRawInputValue env mc mc.RawValueMax = 0 <;>
    by_cases h2 : getDisplayFrowRawInputValue env mc mc.RawValueMin
        = env.DISPLAY_VALUE_FOR_ZERO <;>
      simp [drawMinMaxLinesCmds, h1, h2]

/-- C9 counterexample: while acquisition is running, clearTriggerLine
does not restore a waveform pixel that coincided with the old trigger
line position (the graph restore loop is guarded by the analysis mode
check), so the unconditional restore stated by the claim is false on
the code. -/
theorem clearTriggerLine_running_noRestore_counterexample :
    ((fun _ : Nat => (100 : Int)) 5 = (100 : Int)) ∧
    DrawCmd.pixel 5 100 envSpec.COLOR_DATA_HOLD
      ∉ clearTriggerLineCmds envSpec true (fun _ => 100) 100 := by decide

/-- C9 amended: drawTriggerLine draws the trigger level line exactly
when the trigger level display value has been set (nonzero) and the
trigger mode is not off; clearTriggerLine always restores the grid
pixels at the old line position on every grid column before the last
display column, and restores the waveform pixels that coincided with
the old line position only in analysis mode (acquisition stopped). -/
theorem triggerLine_draw_and_restore (env : DsoEnv) (dc : DisplayControlModel)
    (mc : MeasurementControlModel) (DisplayBuffer : Nat → Int)
    (aTriggerLevelDisplayValue : Int) :
    (dc.TriggerLevelDisplayValue ≠ 0 ∧ mc.TriggerMode ≠ env.TRIGGER_MODE_OFF →
      drawTriggerLineCmds env dc mc
        = [DrawCmd.lineRel 0 dc.TriggerLevelDisplayValue env.DSO_DISPLAY_WIDTH 0
            env.COLOR_TRIGGER_LINE]) ∧
    (¬(dc.TriggerLevelDisplayValue ≠ 0 ∧ mc.TriggerMode ≠ env.TRIGGER_MODE_OFF) →
      drawTriggerLineCmds env dc mc = []) ∧
    (∀ x : Nat, x < env.DSO_DISPLAY_WIDTH - 1 →
      x % env.TIMING_GRID_WIDTH = env.TIMING_GRID_WIDTH - 1 →
      ∀ isRunning : Bool,
        DrawCmd.pixel x aTriggerLevelDisplayValue env.COLOR_GRID_LINES
          ∈ clearTriggerLineCmds env isRunning DisplayBuffer aTriggerLevelDisplayValue) ∧
    (∀ i : Nat, i < env.DSO_DISPLAY_WIDTH →
      DisplayBuffer i = aTriggerLevelDisplayValue →
      DrawCmd.pixel i aTriggerLevelDisplayValue env.COLOR_DATA_HOLD
        ∈ clearTriggerLineCmds env false DisplayBuffer aTriggerLevelDisplayValue) := by
  refine ⟨?_, ?_, ?_, ?_⟩
  · intro h
    unfold drawTriggerLineCmds
    rw [if_pos h]
  · intro h
    unfold drawTriggerLineCmds
    rw [if_neg h]
  · intro x hx hmod isRunning
    unfold clearTriggerLineCmds
    refine List.mem_cons_of_mem _ (List.mem_append_left _ ?_)
    refine List.mem_map_of_mem
      (fun tXPos : Nat =>
        DrawCmd.pixel tXPos aTriggerLevelDisplayValue env.COLOR_GRID_LINES)
      (List.mem_filter.mpr ⟨List.mem_range.mpr hx, ?_⟩)
    simpa using hmod
  · intro i hi hbuf
    unfold clearTriggerLineCmds
    refine List.mem_cons_of_mem _ (List.mem_append_right _ ?_)
    show DrawCmd.pixel i aTriggerLevelDisplayValue env.COLOR_DATA_HOLD
      ∈ (List.range env.DSO_DISPLAY_WIDTH).filterMap
        (fun j => if DisplayBuffer j = aTriggerLevelDisplayValue then
            some (DrawCmd.pixel j aTriggerLevelDisplayValue env.COLOR_DATA_HOLD) else none)
    refine List.mem_filterMap.mpr ⟨i, List.mem_range.mpr hi, ?_⟩
    rw [if_pos hbuf]

/-- Witness for the amended C9: with trigger level 50 and an active
trigger mode the line is drawn; the grid pixel at column 31 is restored
while running, and the waveform pixel at column 5 is restored in
analysis mode. -/
theorem triggerLine_draw_and_restore_witness :
    drawTriggerLineCmds envSpec
        { XScale := 0, drawPixelMode := true, showTriggerInfoLine := false,
          EraseColor := 0, TriggerLevelDisplayValue := 50, ShowFFT := false } mcSpec
      = [DrawCmd.lineRel 0 50 320 0 3] ∧
    DrawCmd.pixel 31 100 envSpec.COLOR_GRID_LINES
      ∈ clearTriggerLineCmds envSpec true (fun _ => 100) 100 ∧
    DrawCmd.pixel 5 100 envSpec.COLOR_DATA_HOLD
      ∈ clearTriggerLineCmds envSpec false (fun _ => 100) 100 := by
  refine ⟨?_, ?_, ?_⟩
  · have h := (triggerLine_draw_and_restore envSpec
      { XScale := 0, drawPixelMode := true, showTriggerInfoLine := false,
        EraseColor := 0, TriggerLevelDisplayValue := 50, ShowFFT := false }
      mcSpec (fun _ => 100) 100).1 ⟨by decide, by decide⟩
    rw [h]
    decide
  · exact (triggerLine_draw_and_restore envSpec
      { XScale := 0, drawPixelMode := true, showTriggerInfoLine := false,
        EraseColor := 0, TriggerLevelDisplayValue := 50, ShowFFT := false }
      mcSpec (fun _ => 100) 100).2.2.1 31 (by decide) (by decide) true
  · exact (triggerLine_draw_and_restore envSpec
      { XScale := 0, drawPixelMode := true, showTriggerInfoLine := false,
        EraseColor := 0, TriggerLevelDisplayValue := 50, ShowFFT := false }
      mcSpec (fun _ => 100) 100).2.2.2 5 (by decide) (by decide)

/-- C6 counterexample: with the trigger state overlay active, a column
whose value is the invisible sentinel still produces a draw command:
the overlay compare treats the sentinel (which lies above every valid
row, hence above the trigger row) as a sample above the trigger level
and draws the overlay marker pixel.  Drawing for a sentinel column is
therefore not short circuited on every render path. -/
theorem sentinel_overlay_draw_counterexample :
    (255 : Int) = envSpec.DISPLAYBUFFER_INVISIBLE_VALUE ∧
    drawDataBufferColumnCmds envSpec true true 0 7 5 255 0 0 0 100 0 0
      = [DrawCmd.pixel 5 93 envSpec.COLOR_DATA_TRIGGER] := by decide

/-- C6 amended: the reserved no data raw marker maps to the display
sentinel, and with the trigger state overlay disabled, min max mode
off and no clear before pass, neither the incremental loop body nor a
regular bulk column ever emits a draw command that uses the sentinel
as a pixel row or as a line endpoint (the overlay path and the min
track and clear before guards, which key only on the main value, are
the exceptions shown by the counterexample). -/
theorem sentinel_not_drawn_main_paths (env : DsoEnv) (mc : MeasurementControlModel)
    (dc : DisplayControlModel) (hmm : mc.isEffectiveMinMaxMode = false)
    (buf bufMin : Nat → Int) (x : Nat) (raw rawMin aDrawColor : Int)
    (drawPixelModeB : Bool) (aClearBeforeColor aColor : Int)
    (hclear : aClearBeforeColor ≤ 0) (i : Nat)
    (tValue screenOld screenOldNext overlayOld tTriggerValue tLastValue tLastValueClear : Int) :
    getDisplayFrowRawInputValue env mc env.DATABUFFER_INVISIBLE_RAW_VALUE
        = env.DISPLAYBUFFER_INVISIBLE_VALUE ∧
    (∀ c ∈ drawRemainingIterCmds env mc dc x buf bufMin raw rawMin aDrawColor,
      drawsAtRow env.DISPLAYBUFFER_INVISIBLE_VALUE c = false) ∧
    (∀ c ∈ drawDataBufferColumnCmds env false drawPixelModeB aClearBeforeColor aColor i
        tValue screenOld screenOldNext overlayOld tTriggerValue tLastValue tLastValueClear,
      drawsAtRow env.DISPLAYBUFFER_INVISIBLE_VALUE c = false) := by
  refine ⟨?_, ?_, ?_⟩
  · unfold getDisplayFrowRawInputValue
    rw [if_pos rfl]
  · intro c hc
    simp [drawRemainingIterCmds, hmm] at hc
    split_ifs at hc <;>
      (try simp only [List.mem_cons, List.mem_singleton, List.not_mem_nil, or_false,
        false_or] at hc) <;>
      (try rcases hc with hc | hc) <;>
        (try subst hc) <;>
          simp_all [drawsAtRow, beq_eq_false_iff_ne]
  · intro c hc
    have hnc : ¬(0 : Int) < aClearBeforeColor := not_lt.mpr hclear
    simp [drawDataBufferColumnCmds, hnc] at hc
    split_ifs at hc <;>
      (try simp only [List.mem_cons, List.mem_singleton, List.not_mem_nil, or_false,
        false_or] at hc) <;>
      (try rcases hc with hc | hc) <;>
        simp_all [drawsAtRow, beq_eq_false_iff_ne]

/-- Witness for the amended C6: a sentinel valued column (raw marker
sample over a sentinel screen buffer entry) produces no draw command at
all in the incremental body, and none in a regular bulk column without
overlay. -/
theorem sentinel_not_drawn_main_paths_witness :
    mcSpec.isEffectiveMinMaxMode = false ∧ (0 : Int) ≤ 0 ∧
    (∀ c ∈ drawRemainingIterCmds envSpec mcSpec dcFFT 5 (fun _ => 255) (fun _ => 0) 4096 0 8,
      drawsAtRow envSpec.DISPLAYBUFFER_INVISIBLE_VALUE c = false) ∧
    (∀ c ∈ drawDataBufferColumnCmds envSpec false true 0 7 5 255 0 0 0 100 0 0,
      drawsAtRow envSpec.DISPLAYBUFFER_INVISIBLE_VALUE c = false) := by
  refine ⟨rfl, by decide, ?_, ?_⟩
  · exact (sentinel_not_drawn_main_paths envSpec mcSpec dcFFT rfl (fun _ => 255) (fun _ => 0)
      5 4096 0 8 true 0 7 (by decide) 5 255 0 0 0 100 0 0).2.1
  · exact (sentinel_not_drawn_main_paths envSpec mcSpec dcFFT rfl (fun _ => 255) (fun _ => 0)
      5 4096 0 8 true 0 7 (by decide) 5 255 0 0 0 100 0 0).2.2
